import Mathlib

/-!
Verification of the stealth-address core of `nachtara` (ERC-5564-style
dual-key stealth addresses over secp256k1).

Embedding conventions:

* Hex strings of the source (`0x…`) are modelled as big-endian byte lists
  (`List Nat`, each entry < 256); all slicing in the source happens at even
  hex-character offsets, i.e. at byte boundaries.
* The secp256k1 group is cyclic of prime order `CURVE_ORDER`, generated by
  `G`; we model a point by its discrete logarithm: a `Nat` in
  `[0, CURVE_ORDER)`, with `0` standing for the point at infinity.  Point
  addition is addition `% CURVE_ORDER`, scalar multiplication is
  multiplication `% CURVE_ORDER`, and `getPublicKey d = d % CURVE_ORDER`.
  Serialisation of points is modelled by concrete injective encodings with
  the same shapes as the library's (33-byte compressed with a leading tag
  byte, 65-byte uncompressed with a leading `0x04`).
* `keccak256` is an external primitive (`viem`); it is passed as an
  explicit function parameter `keccak : List Nat → List Nat` (32-byte
  output in reality; no structure of it is assumed).
* Code that `throw`s is modelled in `Except CryptoErr`, one error
  constructor per throw site.
-/

deriving instance DecidableEq for Except

namespace Nachtara

/-- The secp256k1 group order `n` (the constant `CURVE_ORDER` in the source). -/
def CURVE_ORDER : Nat :=
  0xfffffffffffffffffffffffffffffffebaaedce6af48a03bbfd25e8cd0364141

/-- Errors thrown by the source and its crypto library, one constructor per
throw site. -/
inductive CryptoErr where
  /-- `parseStealthMetaAddress`: 'Invalid stealth meta-address length'. -/
  | invalidMetaAddressLength
  /-- noble `normalizePrivateKey`: scalar outside `(0, CURVE_ORDER)`. -/
  | invalidPrivateKey
  /-- noble `Point.fromHex`: malformed or off-curve public key bytes. -/
  | invalidPoint
  /-- noble `toRawBytes`/`toAffine` on the point at infinity. -/
  | pointAtInfinity
  /-- `decryptData`: 'Decryption failed. Wrong password?'. -/
  | decryptionFailed
  deriving DecidableEq, Repr

/-- Big-endian bytes of `x`, padded/truncated to width `w` (the source's
`padStart(2*w, '0')` on hex strings; all values fit their width here). -/
def natToBytesBE (w x : Nat) : List Nat :=
  match w with
  | 0 => []
  | w + 1 => natToBytesBE w (x / 256) ++ [x % 256]

/-- Big-endian byte list read back as a `Nat` (JS `BigInt('0x…')`). -/
def natFromBytesBE (b : List Nat) : Nat :=
  b.foldl (fun acc by_ => acc * 256 + by_) 0

/-- Model of the 33-byte compressed serialisation of a (non-infinity) point:
a tag byte followed by 32 bytes determining the point. -/
def serComp (P : Nat) : List Nat := 2 :: natToBytesBE 32 P

/-- Model of the 65-byte uncompressed serialisation of a (non-infinity)
point: `0x04` followed by 64 bytes determining the point. -/
def serUncomp (P : Nat) : List Nat := 4 :: natToBytesBE 64 P

/-- noble `Point.fromHex` on a compressed key: requires the 33-byte shape
with a `02`/`03` tag and a body decoding to a valid (non-infinity) point. -/
def pointFromHex (b : List Nat) : Except CryptoErr Nat :=
  match b with
  | c :: rest =>
      if (c = 2 ∨ c = 3) ∧ rest.length = 32 ∧
          0 < natFromBytesBE rest ∧ natFromBytesBE rest < CURVE_ORDER then
        .ok (natFromBytesBE rest)
      else .error .invalidPoint
  | [] => .error .invalidPoint

/-- noble `normalizePrivateKey`: a private scalar must lie in
`(0, CURVE_ORDER)`. -/
def normalizePrivateKey (d : Nat) : Except CryptoErr Nat :=
  if 0 < d ∧ d < CURVE_ORDER then .ok d else .error .invalidPrivateKey

/-- noble `Point.fromPrivateKey` on a 32-byte buffer: read the bytes as a
scalar, validate it, and return the point `d * G` (in the discrete-log
model, `d` itself).  Notably it does NOT reduce modulo the curve order. -/
def pointFromPrivateKeyBytes (b : List Nat) : Except CryptoErr Nat := do
  let d ← normalizePrivateKey (natFromBytesBE b)
  pure d

/-- noble `toRawBytes(false)`: uncompressed serialisation; throws on the
point at infinity. -/
def toRawBytesUncompressed (P : Nat) : Except CryptoErr (List Nat) :=
  if P = 0 then .error .pointAtInfinity else .ok (serUncomp P)

/-- Point addition in the discrete-log model (`Point.add`). -/
def pointAdd (P Q : Nat) : Nat := (P + Q) % CURVE_ORDER

/-- noble `getPublicKey(d, true)`: validate the scalar and serialise
`d * G` compressed. -/
def getPublicKey (d : Nat) : Except CryptoErr (List Nat) := do
  let d ← normalizePrivateKey d
  pure (serComp (d % CURVE_ORDER))

/-- noble `getSharedSecret(privA, pubB)`: parse the public key, validate the
scalar, multiply, and serialise the result uncompressed (the default);
serialisation throws if the product is the point at infinity. -/
def getSharedSecret (privA : Nat) (pubB : List Nat) :
    Except CryptoErr (List Nat) := do
  let P ← pointFromHex pubB
  let d ← normalizePrivateKey privA
  toRawBytesUncompressed (d * P % CURVE_ORDER)

/-- viem `publicKeyToAddress`: drop the `0x04` prefix byte, keccak the
remaining 64 bytes, and keep the last 20 bytes.  (The EIP-55 checksum only
changes the letter case of the hex rendering; addresses are compared
case-insensitively throughout the source, so the byte view is faithful.) -/
def publicKeyToAddress (keccak : List Nat → List Nat) (pub : List Nat) :
    List Nat :=
  (keccak (pub.drop 1)).drop 12

/-- `createStealthMetaAddress`: concatenation of the two compressed public
keys. -/
def createStealthMetaAddress (spendingPublicKey viewingPublicKey : List Nat) :
    List Nat :=
  spendingPublicKey ++ viewingPublicKey

/-- `parseStealthMetaAddress`: 33 bytes (66 hex chars) → one key used for
both roles; otherwise must be 66 bytes (132 hex chars) → split in half;
any other length throws. -/
def parseStealthMetaAddress (metaAddress : List Nat) :
    Except CryptoErr (List Nat × List Nat) :=
  if metaAddress.length = 33 then
    .ok (metaAddress, metaAddress)
  else if metaAddress.length ≠ 66 then
    .error .invalidMetaAddressLength
  else
    .ok (metaAddress.take 33, metaAddress.drop 33)

/-- Result record of `generateStealthAddress`. -/
structure StealthAddressInfo where
  stealthAddress : List Nat
  ephemeralPublicKey : List Nat
  viewTag : List Nat
  deriving DecidableEq, Repr

/-- `generateStealthAddress(recipientMetaAddress, ephemeralPrivateKey)`:
the sender side.  The optional ephemeral key (drawn from the CSPRNG when
absent) is an explicit argument here. -/
def generateStealthAddress (keccak : List Nat → List Nat)
    (recipientMetaAddress : List Nat) (ephPrivKey : Nat) :
    Except CryptoErr StealthAddressInfo := do
  let (spendingPublicKey, viewingPublicKey) ←
    parseStealthMetaAddress recipientMetaAddress
  let ephPubKey ← getPublicKey ephPrivKey
  let sharedSecret ← getSharedSecret ephPrivKey viewingPublicKey
  let hashedSecret := keccak sharedSecret
  let viewTag := hashedSecret.take 1
  let spendingPoint ← pointFromHex spendingPublicKey
  let hashedSecretPoint ← pointFromPrivateKeyBytes hashedSecret
  let stealthPublicKey ← toRawBytesUncompressed
    (pointAdd spendingPoint hashedSecretPoint)
  let stealthAddress := publicKeyToAddress keccak stealthPublicKey
  pure { stealthAddress := stealthAddress,
         ephemeralPublicKey := ephPubKey,
         viewTag := viewTag }

/-- `checkStealthAddress(ephemeralPublicKey, spendingPublicKey,
viewingPrivateKey, announcedAddress, announcedViewTag)`: the recipient
side.  The view-tag comparison happens before any point parsing or
addition, and returns `false` on mismatch. -/
def checkStealthAddress (keccak : List Nat → List Nat)
    (ephemeralPublicKey spendingPublicKey : List Nat)
    (viewingPrivateKey : Nat)
    (announcedAddress announcedViewTag : List Nat) :
    Except CryptoErr Bool := do
  let sharedSecret ← getSharedSecret viewingPrivateKey ephemeralPublicKey
  let hashedSecret := keccak sharedSecret
  let computedViewTag := hashedSecret.take 1
  if computedViewTag ≠ announcedViewTag then
    pure false
  else do
    let spendingPoint ← pointFromHex spendingPublicKey
    let hashedSecretPoint ← pointFromPrivateKeyBytes hashedSecret
    let stealthPublicKey ← toRawBytesUncompressed
      (pointAdd spendingPoint hashedSecretPoint)
    let computedAddress := publicKeyToAddress keccak stealthPublicKey
    pure (computedAddress = announcedAddress)

/-- `computeStealthPrivateKey(ephemeralPublicKey, spendingPrivateKey,
viewingPrivateKey)`: `(spendingPrivate + hash) mod CURVE_ORDER`, returned
as the scalar value (the source renders it as 32-byte zero-padded hex). -/
def computeStealthPrivateKey (keccak : List Nat → List Nat)
    (ephemeralPublicKey : List Nat)
    (spendingPrivateKey viewingPrivateKey : Nat) :
    Except CryptoErr Nat := do
  let sharedSecret ← getSharedSecret viewingPrivateKey ephemeralPublicKey
  let hashedSecret := keccak sharedSecret
  pure ((spendingPrivateKey + natFromBytesBE hashedSecret) % CURVE_ORDER)

/-- `createAnnouncementMetadata(viewTag, extraData)`: first byte of the
view tag, then the optional extra data verbatim. -/
def createAnnouncementMetadata (viewTag : List Nat)
    (extraData : Option (List Nat)) : List Nat :=
  viewTag.take 1 ++ (extraData.getD [])

/-- `extractViewTag(metadata)`: the first byte of the metadata
(`metadata.slice(2, 4)` on the hex string); on empty metadata this yields
the empty byte string `0x`, not an error. -/
def extractViewTag (metadata : List Nat) : List Nat :=
  metadata.take 1

/-- Deriving a public key uncompressed (`getPublicKey(d, false)`), as a
recipient does with a recovered stealth private key before converting it
to an account address. -/
def getPublicKeyUncompressed (d : Nat) : Except CryptoErr (List Nat) := do
  let d ← normalizePrivateKey d
  pure (serUncomp (d % CURVE_ORDER))

/-- Derive the public key of a private scalar and convert it to an account
address (the recipient-side use of a recovered stealth private key). -/
def stealthAddressFromPrivateKey (keccak : List Nat → List Nat) (d : Nat) :
    Except CryptoErr (List Nat) := do
  let pub ← getPublicKeyUncompressed d
  pure (publicKeyToAddress keccak pub)

/-- An on-chain announcement record (`AnnouncementData` in `types.ts`). -/
structure AnnouncementData where
  schemeId : Nat
  stealthAddress : List Nat
  caller : List Nat
  ephemeralPubKey : List Nat
  metadata : List Nat
  blockNumber : Nat
  transactionHash : List Nat
  deriving DecidableEq, Repr

/-- The scanning loop of the receive command (`receiveCommand` in
`src/commands/receive.ts`): iterate the announcements in arrival order;
for each, extract the view tag from the metadata and run
`checkStealthAddress`; when it returns `true`, recover the stealth private
key with `computeStealthPrivateKey` and collect the pair.  An exception
thrown by either call aborts the whole scan, as in the source. -/
def scanAnnouncements (keccak : List Nat → List Nat)
    (spendingPublicKey : List Nat)
    (spendingPrivateKey viewingPrivateKey : Nat) :
    List AnnouncementData → Except CryptoErr (List (AnnouncementData × Nat))
  | [] => .ok []
  | announcement :: rest => do
      let viewTag := extractViewTag announcement.metadata
      let isOurs ← checkStealthAddress keccak announcement.ephemeralPubKey
        spendingPublicKey viewingPrivateKey announcement.stealthAddress
        viewTag
      if isOurs then
        let privateKey ← computeStealthPrivateKey keccak
          announcement.ephemeralPubKey spendingPrivateKey viewingPrivateKey
        let owned ← scanAnnouncements keccak spendingPublicKey
          spendingPrivateKey viewingPrivateKey rest
        pure ((announcement, privateKey) :: owned)
      else
        scanAnnouncements keccak spendingPublicKey spendingPrivateKey
          viewingPrivateKey rest

/-- Result record of `encryptData`. -/
structure EncryptedPayload where
  encrypted : List Nat
  salt : List Nat
  iv : List Nat
  deriving DecidableEq, Repr

/-- `PBKDF2_ITERATIONS` in the source. -/
def PBKDF2_ITERATIONS : Nat := 100000

/-- `deriveEncryptionKey(password, salt)`: PBKDF2-HMAC-SHA256 with 100,000
iterations and a 32-byte output.  The PBKDF2 primitive itself is external
(`@noble/hashes`); it is injected as `kdf iterations dkLen password salt`. -/
def deriveEncryptionKey (kdf : Nat → Nat → List Nat → List Nat → List Nat)
    (password salt : List Nat) : List Nat :=
  kdf PBKDF2_ITERATIONS 32 password salt

/-- `encryptData(data, password)`: derive the key from the password and a
fresh 32-byte salt, AES-256-GCM-encrypt under a fresh 12-byte nonce, and
return ciphertext, salt and nonce.  The AES-GCM primitive (WebCrypto) is
injected as `aesGcmEncrypt key iv plaintext`; the two random draws are
explicit `salt`/`iv` arguments. -/
def encryptData (kdf : Nat → Nat → List Nat → List Nat → List Nat)
    (aesGcmEncrypt : List Nat → List Nat → List Nat → List Nat)
    (data password salt iv : List Nat) : EncryptedPayload :=
  let key := deriveEncryptionKey kdf password salt
  { encrypted := aesGcmEncrypt key iv data, salt := salt, iv := iv }

/-- `decryptData(encryptedHex, password, saltHex, ivHex)`: re-derive the
key and AES-256-GCM-decrypt; any failure of the authenticated decryption
(`aesGcmDecrypt key iv ciphertext = none`) is caught and replaced by the
single decryption-failed error. -/
def decryptData (kdf : Nat → Nat → List Nat → List Nat → List Nat)
    (aesGcmDecrypt : List Nat → List Nat → List Nat → Option (List Nat))
    (encrypted password salt iv : List Nat) : Except CryptoErr (List Nat) :=
  let key := deriveEncryptionKey kdf password salt
  match aesGcmDecrypt key iv encrypted with
  | some decrypted => .ok decrypted
  | none => .error .decryptionFailed

/-- The per-announcement recognition call made by the scanning loop. -/
def announcementCheck (keccak : List Nat → List Nat)
    (spendingPublicKey : List Nat) (viewingPrivateKey : Nat)
    (a : AnnouncementData) : Except CryptoErr Bool :=
  checkStealthAddress keccak a.ephemeralPubKey spendingPublicKey
    viewingPrivateKey a.stealthAddress (extractViewTag a.metadata)

/-- The private key the scanning loop recovers for a recognised
announcement (`0` as a dummy in the unreachable failure case). -/
def announcementKey (keccak : List Nat → List Nat)
    (spendingPrivateKey viewingPrivateKey : Nat) (a : AnnouncementData) :
    Nat :=
  (computeStealthPrivateKey keccak a.ephemeralPubKey spendingPrivateKey
    viewingPrivateKey).toOption.getD 0

/-- A concrete recognised announcement used as a test fixture. -/
def oursAnn : AnnouncementData :=
  { schemeId := 1, stealthAddress := (natToBytesBE 32 5).drop 12,
    caller := [], ephemeralPubKey := serComp 3,
    metadata := (natToBytesBE 32 5).take 1, blockNumber := 0,
    transactionHash := [] }

/-- A concrete unrecognised announcement (mismatching view tag) used as a
test fixture. -/
def strangerAnn : AnnouncementData :=
  { schemeId := 1, stealthAddress := [], caller := [],
    ephemeralPubKey := serComp 3, metadata := [9], blockNumber := 1,
    transactionHash := [] }

/-! ### Basic lemmas about the byte encodings and primitives -/

lemma ok_bind {α β : Type} (a : α) (f : α → Except CryptoErr β) :
    (Except.ok a >>= f) = f a := rfl

lemma error_bind {α β : Type} (e : CryptoErr) (f : α → Except CryptoErr β) :
    ((Except.error e : Except CryptoErr α) >>= f) = .error e := rfl

lemma pure_eq_ok {α : Type} (a : α) :
    (pure a : Except CryptoErr α) = .ok a := rfl

lemma natToBytesBE_length (w x : Nat) : (natToBytesBE w x).length = w := by
  induction w generalizing x with
  | zero => simp [natToBytesBE]
  | succ w ih => simp [natToBytesBE, ih]

lemma natFromBytesBE_snoc (l : List Nat) (b : Nat) :
    natFromBytesBE (l ++ [b]) = natFromBytesBE l * 256 + b := by
  simp [natFromBytesBE, List.foldl_append]

lemma natFromBytesBE_natToBytesBE (w x : Nat) (h : x < 256 ^ w) :
    natFromBytesBE (natToBytesBE w x) = x := by
  induction w generalizing x with
  | zero =>
      simp only [natToBytesBE, natFromBytesBE, List.foldl_nil]
      omega
  | succ w ih =>
      rw [natToBytesBE, natFromBytesBE_snoc, ih]
      · omega
      · have : 256 ^ (w + 1) = 256 ^ w * 256 := pow_succ 256 w
        omega

lemma curve_order_lt : CURVE_ORDER < 256 ^ 32 := by
  norm_num [CURVE_ORDER]

lemma serComp_length (P : Nat) : (serComp P).length = 33 := by
  simp [serComp, natToBytesBE_length]

lemma pointFromHex_serComp {P : Nat} (h0 : 0 < P) (hN : P < CURVE_ORDER) :
    pointFromHex (serComp P) = .ok P := by
  have hlt : P < 256 ^ 32 := lt_trans hN curve_order_lt
  simp [pointFromHex, serComp, natToBytesBE_length,
    natFromBytesBE_natToBytesBE 32 P hlt, h0, hN]

lemma getPublicKey_valid {d : Nat} (h0 : 0 < d) (hN : d < CURVE_ORDER) :
    getPublicKey d = .ok (serComp d) := by
  simp [getPublicKey, normalizePrivateKey, h0, hN, Nat.mod_eq_of_lt hN]

lemma getSharedSecret_serComp {a b : Nat}
    (ha0 : 0 < a) (haN : a < CURVE_ORDER)
    (hb0 : 0 < b) (hbN : b < CURVE_ORDER) :
    getSharedSecret a (serComp b) =
      toRawBytesUncompressed (a * b % CURVE_ORDER) := by
  simp [getSharedSecret, pointFromHex_serComp hb0 hbN,
    normalizePrivateKey, ha0, haN, ok_bind]

lemma parse_createStealthMetaAddress (a b : List Nat)
    (ha : a.length = 33) (hb : b.length = 33) :
    parseStealthMetaAddress (createStealthMetaAddress a b) = .ok (a, b) := by
  have hlen : (a ++ b).length = 66 := by simp [ha, hb]
  simp only [createStealthMetaAddress, parseStealthMetaAddress, hlen]
  norm_num
  exact ⟨List.take_left' ha, List.drop_left' ha⟩

lemma toRawBytesUncompressed_ok_iff {P : Nat} {b : List Nat} :
    toRawBytesUncompressed P = .ok b ↔ P ≠ 0 ∧ b = serUncomp P := by
  by_cases hP : P = 0 <;> simp [toRawBytesUncompressed, hP, eq_comm]

lemma pointFromPrivateKeyBytes_ok_iff {b : List Nat} {d : Nat} :
    pointFromPrivateKeyBytes b = .ok d ↔
      (0 < natFromBytesBE b ∧ natFromBytesBE b < CURVE_ORDER) ∧
        d = natFromBytesBE b := by
  by_cases h : 0 < natFromBytesBE b ∧ natFromBytesBE b < CURVE_ORDER <;>
    simp [pointFromPrivateKeyBytes, normalizePrivateKey, h, ok_bind,
      error_bind, pure_eq_ok, eq_comm]

/-- On a meta-address encoding two valid public keys and a valid ephemeral
scalar, `generateStealthAddress` reduces to the ECDH-hash-add pipeline of
the source with all input validation discharged. -/
lemma generate_unfold (keccak : List Nat → List Nat) {s v e : Nat}
    (hs0 : 0 < s) (hsN : s < CURVE_ORDER) (hv0 : 0 < v) (hvN : v < CURVE_ORDER)
    (he0 : 0 < e) (heN : e < CURVE_ORDER) :
    generateStealthAddress keccak
      (createStealthMetaAddress (serComp s) (serComp v)) e =
      (toRawBytesUncompressed (e * v % CURVE_ORDER) >>= fun sharedSecret =>
        pointFromPrivateKeyBytes (keccak sharedSecret) >>= fun hp =>
        toRawBytesUncompressed (pointAdd s hp) >>= fun stealthPub =>
        pure { stealthAddress := publicKeyToAddress keccak stealthPub,
               ephemeralPublicKey := serComp e,
               viewTag := (keccak sharedSecret).take 1 }) := by
  simp only [generateStealthAddress,
    parse_createStealthMetaAddress _ _ (serComp_length s) (serComp_length v),
    ok_bind, getPublicKey_valid he0 heN,
    getSharedSecret_serComp he0 heN hv0 hvN,
    pointFromHex_serComp hs0 hsN]

lemma pointFromPrivateKeyBytes_error {b : List Nat}
    (h : natFromBytesBE b = 0 ∨ CURVE_ORDER ≤ natFromBytesBE b) :
    pointFromPrivateKeyBytes b = .error .invalidPrivateKey := by
  have hcon : ¬(0 < natFromBytesBE b ∧ natFromBytesBE b < CURVE_ORDER) := by
    omega
  simp [pointFromPrivateKeyBytes, normalizePrivateKey, hcon, error_bind]

/-! ### Claims -/

/-- C6: for every pair of 33-byte compressed public keys, decoding the
encoded meta-address returns exactly the original spending and viewing
public keys: `parseStealthMetaAddress (createStealthMetaAddress pair)`
round-trips losslessly. -/
theorem C6_meta_address_roundtrip (spendingPublicKey viewingPublicKey : List Nat)
    (hs : spendingPublicKey.length = 33) (hv : viewingPublicKey.length = 33) :
    parseStealthMetaAddress
      (createStealthMetaAddress spendingPublicKey viewingPublicKey) =
      .ok (spendingPublicKey, viewingPublicKey) :=
  parse_createStealthMetaAddress _ _ hs hv

/-- Witness for C6 at a concrete pair of 33-byte keys. -/
theorem C6_witness :
    parseStealthMetaAddress
      (createStealthMetaAddress (serComp 1) (serComp 2)) =
      .ok (serComp 1, serComp 2) :=
  C6_meta_address_roundtrip (serComp 1) (serComp 2)
    (serComp_length 1) (serComp_length 2)

/-- C7: `parseStealthMetaAddress` dispatches purely on the input length:
33 bytes → the single key is returned in both roles; 66 bytes → split into
spending (first 33 bytes) and viewing (last 33 bytes); every other length
fails with the invalid-meta-address-length error.  The equation holds for
arbitrary byte lists — no curve-membership validation is performed. -/
theorem C7_parse_meta_address_lengths (metaAddress : List Nat) :
    parseStealthMetaAddress metaAddress =
      if metaAddress.length = 33 then .ok (metaAddress, metaAddress)
      else if metaAddress.length = 66 then
        .ok (metaAddress.take 33, metaAddress.drop 33)
      else .error .invalidMetaAddressLength := by
  simp only [parseStealthMetaAddress]
  split
  · rfl
  · split
    · simp_all
    · simp_all

/-- C9 counterexample: on empty metadata, `extractViewTag` returns the
empty byte string (the hex string `0x`) as a defined value — it does not
fail, contrary to the claim. -/
theorem C9_empty_metadata_no_failure_cex : extractViewTag [] = [] := rfl

/-- C9 (amended): `createAnnouncementMetadata` places the view-tag byte
first and appends the optional extra bytes verbatim; `extractViewTag`
returns the first byte of the metadata, and on empty metadata it returns
the empty byte string rather than failing. -/
theorem C9_metadata_pack_extract (t : Nat) (rest extra metadata : List Nat) :
    createAnnouncementMetadata (t :: rest) (some extra) = t :: extra ∧
    createAnnouncementMetadata (t :: rest) none = [t] ∧
    extractViewTag metadata = metadata.take 1 := by
  refine ⟨?_, ?_, rfl⟩ <;> simp [createAnnouncementMetadata]

/-- C4 counterexample: `computeStealthPrivateKey` performs no zero
re-validation.  With a hash function whose output reads as
`CURVE_ORDER - 1` and spending private key `1`, the wrapped-around sum is
`0` and the function returns the zero scalar `.ok 0` instead of rejecting
with a derived-key-invalid error. -/
theorem C4_no_zero_revalidation_cex :
    computeStealthPrivateKey (fun _ => natToBytesBE 32 (CURVE_ORDER - 1))
      (serComp 3) 1 2 = .ok 0 := by
  decide

/-- C4 (amended): whenever `computeStealthPrivateKey` succeeds, its result
lies in `[0, CURVE_ORDER - 1]` (additive wraparound is handled by the
reduction modulo the curve order), but no nonzero re-validation is
performed before returning: the zero case returns the zero scalar. -/
theorem C4_result_in_range (keccak : List Nat → List Nat)
    (ephemeralPublicKey : List Nat) (spendingPrivateKey viewingPrivateKey k : Nat)
    (h : computeStealthPrivateKey keccak ephemeralPublicKey
      spendingPrivateKey viewingPrivateKey = .ok k) :
    k < CURVE_ORDER := by
  simp only [computeStealthPrivateKey] at h
  cases hs : getSharedSecret viewingPrivateKey ephemeralPublicKey with
  | error e => rw [hs, error_bind] at h; cases h
  | ok s =>
      rw [hs, ok_bind] at h
      simp only [pure_eq_ok, Except.ok.injEq] at h
      subst h
      exact Nat.mod_lt _ (by norm_num [CURVE_ORDER])

/-- Witness for C4 at a concrete input: the recovered scalar is reduced
modulo the curve order. -/
theorem C4_witness :
    computeStealthPrivateKey (fun _ => natToBytesBE 32 5) (serComp 3) 1 2 =
      .ok 6 ∧ (6 : Nat) < CURVE_ORDER :=
  ⟨by decide,
   C4_result_in_range (fun _ => natToBytesBE 32 5) (serComp 3) 1 2 6
     (by decide)⟩

/-- C2: for every valid key pair and ephemeral key, the private scalar
returned by `computeStealthPrivateKey` (the wrapped-around sum
`(spendingPrivate + hash) mod n`), when its public key is derived and
converted to an account address, equals the `stealthAddress` field
returned by `generateStealthAddress` for the same meta-address and
ephemeral key: the scalar `(spendingPrivate + hash) mod n` generates the
point `spendingPublic + hash * G`. -/
theorem C2_recovered_key_matches_address (keccak : List Nat → List Nat)
    (s v e k : Nat) (r : StealthAddressInfo)
    (hs0 : 0 < s) (hsN : s < CURVE_ORDER) (hv0 : 0 < v) (hvN : v < CURVE_ORDER)
    (he0 : 0 < e) (heN : e < CURVE_ORDER)
    (hgen : generateStealthAddress keccak
      (createStealthMetaAddress (serComp s) (serComp v)) e = .ok r)
    (hk : computeStealthPrivateKey keccak r.ephemeralPublicKey s v = .ok k) :
    stealthAddressFromPrivateKey keccak k = .ok r.stealthAddress := by
  rw [generate_unfold keccak hs0 hsN hv0 hvN he0 heN] at hgen
  cases hss : toRawBytesUncompressed (e * v % CURVE_ORDER) with
  | error err => rw [hss, error_bind] at hgen; simp at hgen
  | ok sharedSecret =>
      simp only [hss, ok_bind] at hgen
      cases hpk : pointFromPrivateKeyBytes (keccak sharedSecret) with
      | error err => rw [hpk, error_bind] at hgen; simp at hgen
      | ok hp =>
          simp only [hpk, ok_bind] at hgen
          cases hst : toRawBytesUncompressed (pointAdd s hp) with
          | error err => rw [hst, error_bind] at hgen; simp at hgen
          | ok stealthPub =>
              simp only [hst, ok_bind, pure_eq_ok, Except.ok.injEq] at hgen
              subst hgen
              obtain ⟨-, hhval⟩ := pointFromPrivateKeyBytes_ok_iff.mp hpk
              obtain ⟨haddnz, hstealth⟩ := toRawBytesUncompressed_ok_iff.mp hst
              dsimp only at hk
              rw [computeStealthPrivateKey,
                getSharedSecret_serComp hv0 hvN he0 heN, Nat.mul_comm v e,
                hss, ok_bind, pure_eq_ok] at hk
              simp only [Except.ok.injEq] at hk
              subst hk
              dsimp only
              rw [hstealth, ← hhval]
              show stealthAddressFromPrivateKey keccak (pointAdd s hp) = _
              have hk0 : 0 < pointAdd s hp := Nat.pos_of_ne_zero haddnz
              have hkN : pointAdd s hp < CURVE_ORDER :=
                Nat.mod_lt _ (by norm_num [CURVE_ORDER])
              simp [stealthAddressFromPrivateKey, getPublicKeyUncompressed,
                normalizePrivateKey, hk0, hkN, ok_bind, pure_eq_ok,
                Nat.mod_eq_of_lt hkN]

/-- Witness for C2 at a concrete key pair, ephemeral key and keccak
stand-in: the recovered scalar's derived address equals the generated
stealth address. -/
theorem C2_witness :
    stealthAddressFromPrivateKey (fun _ => natToBytesBE 32 5) 6 =
      .ok (StealthAddressInfo.mk ((natToBytesBE 32 5).drop 12)
        (serComp 3) ((natToBytesBE 32 5).take 1)).stealthAddress :=
  C2_recovered_key_matches_address (fun _ => natToBytesBE 32 5) 1 2 3 6
    (StealthAddressInfo.mk ((natToBytesBE 32 5).drop 12)
      (serComp 3) ((natToBytesBE 32 5).take 1))
    (by decide) (by decide) (by decide) (by decide) (by decide) (by decide)
    (by decide) (by decide)

/-- C3: whenever the first byte of the keccak hash of the ECDH shared
secret differs from the announced view tag, `checkStealthAddress`
deterministically returns `false` by the short-circuit path.  The
spending public key is an arbitrary byte list here — even an unparseable
one — which shows the stealth-point addition and address derivation are
not reached on this path. -/
theorem C3_viewtag_mismatch_short_circuit (keccak : List Nat → List Nat)
    (ephemeralPublicKey spendingPublicKey : List Nat) (viewingPrivateKey : Nat)
    (announcedAddress announcedViewTag sharedSecret : List Nat)
    (hs : getSharedSecret viewingPrivateKey ephemeralPublicKey =
      .ok sharedSecret)
    (htag : (keccak sharedSecret).take 1 ≠ announcedViewTag) :
    checkStealthAddress keccak ephemeralPublicKey spendingPublicKey
      viewingPrivateKey announcedAddress announcedViewTag = .ok false := by
  simp [checkStealthAddress, hs, ok_bind, pure_eq_ok, htag]

/-- C1: for every valid spend/view key pair and valid ephemeral private
key, whenever the sender-side `generateStealthAddress` (on the encoded
meta-address) produces a result, the recipient-side `checkStealthAddress`
with the pair's spending public key, viewing private key, the announced
stealth address and the announced view tag returns `true`: the ECDH
computations `viewingPrivate * ephemeralPublic` and
`ephemeralPrivate * viewingPublic` yield the same shared point, so the
recomputed tag and address match. -/
theorem C1_generate_then_check_true (keccak : List Nat → List Nat)
    (s v e : Nat) (r : StealthAddressInfo)
    (hs0 : 0 < s) (hsN : s < CURVE_ORDER) (hv0 : 0 < v) (hvN : v < CURVE_ORDER)
    (he0 : 0 < e) (heN : e < CURVE_ORDER)
    (hgen : generateStealthAddress keccak
      (createStealthMetaAddress (serComp s) (serComp v)) e = .ok r) :
    checkStealthAddress keccak r.ephemeralPublicKey (serComp s) v
      r.stealthAddress r.viewTag = .ok true := by
  rw [generate_unfold keccak hs0 hsN hv0 hvN he0 heN] at hgen
  cases hss : toRawBytesUncompressed (e * v % CURVE_ORDER) with
  | error err => rw [hss, error_bind] at hgen; simp at hgen
  | ok sharedSecret =>
      simp only [hss, ok_bind] at hgen
      cases hpk : pointFromPrivateKeyBytes (keccak sharedSecret) with
      | error err => rw [hpk, error_bind] at hgen; simp at hgen
      | ok hp =>
          simp only [hpk, ok_bind] at hgen
          cases hst : toRawBytesUncompressed (pointAdd s hp) with
          | error err => rw [hst, error_bind] at hgen; simp at hgen
          | ok stealthPub =>
              simp only [hst, ok_bind, pure_eq_ok, Except.ok.injEq] at hgen
              subst hgen
              simp only [checkStealthAddress]
              rw [getSharedSecret_serComp hv0 hvN he0 heN, Nat.mul_comm v e]
              simp only [hss, ok_bind]
              rw [if_neg (fun hcon => hcon rfl)]
              rw [pointFromHex_serComp hs0 hsN]
              simp only [ok_bind, hpk, hst, pure_eq_ok, Except.ok.injEq,
                decide_eq_true_eq]

/-- Witness for C1 at a concrete key pair and ephemeral key, with a
concrete stand-in for the injected keccak primitive. -/
theorem C1_witness :
    checkStealthAddress (fun _ => natToBytesBE 32 5)
      (StealthAddressInfo.mk ((natToBytesBE 32 5).drop 12)
        (serComp 3) ((natToBytesBE 32 5).take 1)).ephemeralPublicKey
      (serComp 1) 2
      (StealthAddressInfo.mk ((natToBytesBE 32 5).drop 12)
        (serComp 3) ((natToBytesBE 32 5).take 1)).stealthAddress
      (StealthAddressInfo.mk ((natToBytesBE 32 5).drop 12)
        (serComp 3) ((natToBytesBE 32 5).take 1)).viewTag = .ok true :=
  C1_generate_then_check_true (fun _ => natToBytesBE 32 5) 1 2 3
    (StealthAddressInfo.mk ((natToBytesBE 32 5).drop 12)
      (serComp 3) ((natToBytesBE 32 5).take 1))
    (by decide) (by decide) (by decide) (by decide) (by decide) (by decide)
    (by decide)

/-- Witness for C3 at concrete inputs, with a malformed (empty) spending
public key: the mismatching tag still yields `.ok false`, not a parse
error. -/
theorem C3_witness :
    checkStealthAddress (fun _ => natToBytesBE 32 5) (serComp 3) [] 2 [] [9] =
      .ok false :=
  C3_viewtag_mismatch_short_circuit (fun _ => natToBytesBE 32 5)
    (serComp 3) [] 2 [] [9] (serUncomp 6) (by decide) (by decide)

/-- C10: `generateStealthAddress` and `checkStealthAddress` feed the full
32-byte keccak hash of the shared secret to `ProjectivePoint.fromPrivateKey`
without reducing it modulo the curve order, so whenever that hash read as
an integer is `0` or `≥ CURVE_ORDER`, both throw (generation always; the
recognition path once it is past the view-tag comparison, i.e. with the
matching announced tag), while `computeStealthPrivateKey` reduces the same
hash modulo the curve order and succeeds: on this input set the
generation/recognition path and the key-recovery path disagree. -/
theorem C10_hash_out_of_range_behavior (keccak : List Nat → List Nat)
    (s v e : Nat)
    (hs0 : 0 < s) (hsN : s < CURVE_ORDER) (hv0 : 0 < v) (hvN : v < CURVE_ORDER)
    (he0 : 0 < e) (heN : e < CURVE_ORDER)
    (hnz : e * v % CURVE_ORDER ≠ 0)
    (hbad : natFromBytesBE (keccak (serUncomp (e * v % CURVE_ORDER))) = 0 ∨
      CURVE_ORDER ≤ natFromBytesBE (keccak (serUncomp (e * v % CURVE_ORDER)))) :
    generateStealthAddress keccak
      (createStealthMetaAddress (serComp s) (serComp v)) e =
      .error .invalidPrivateKey ∧
    (∀ announcedAddress,
      checkStealthAddress keccak (serComp e) (serComp s) v announcedAddress
        ((keccak (serUncomp (e * v % CURVE_ORDER))).take 1) =
        .error .invalidPrivateKey) ∧
    computeStealthPrivateKey keccak (serComp e) s v =
      .ok ((s + natFromBytesBE (keccak (serUncomp (e * v % CURVE_ORDER)))) %
        CURVE_ORDER) := by
  have hshared : toRawBytesUncompressed (e * v % CURVE_ORDER) =
      .ok (serUncomp (e * v % CURVE_ORDER)) := by
    simp [toRawBytesUncompressed, hnz]
  refine ⟨?_, ?_, ?_⟩
  · rw [generate_unfold keccak hs0 hsN hv0 hvN he0 heN]
    simp only [hshared, ok_bind, pointFromPrivateKeyBytes_error hbad,
      error_bind]
  · intro announcedAddress
    simp only [checkStealthAddress,
      getSharedSecret_serComp hv0 hvN he0 heN, Nat.mul_comm v e,
      hshared, ok_bind]
    rw [if_neg (fun hcon => hcon rfl)]
    rw [pointFromHex_serComp hs0 hsN]
    simp only [ok_bind, pointFromPrivateKeyBytes_error hbad, error_bind]
  · rw [computeStealthPrivateKey,
      getSharedSecret_serComp hv0 hvN he0 heN, Nat.mul_comm v e,
      hshared, ok_bind, pure_eq_ok]

/-- Witness for C10 with a keccak stand-in whose output reads as exactly
`CURVE_ORDER`: generation and (tag-matching) recognition throw, while key
recovery succeeds with the reduced scalar. -/
theorem C10_witness :
    generateStealthAddress (fun _ => natToBytesBE 32 CURVE_ORDER)
      (createStealthMetaAddress (serComp 1) (serComp 2)) 3 =
      .error .invalidPrivateKey ∧
    checkStealthAddress (fun _ => natToBytesBE 32 CURVE_ORDER)
      (serComp 3) (serComp 1) 2 []
      ((natToBytesBE 32 CURVE_ORDER).take 1) = .error .invalidPrivateKey ∧
    computeStealthPrivateKey (fun _ => natToBytesBE 32 CURVE_ORDER)
      (serComp 3) 1 2 = .ok 1 := by
  have h := C10_hash_out_of_range_behavior
    (fun _ => natToBytesBE 32 CURVE_ORDER) 1 2 3
    (by decide) (by decide) (by decide) (by decide) (by decide) (by decide)
    (by decide) (Or.inr (by decide))
  exact ⟨h.1, h.2.1 [], by rw [h.2.2]; decide⟩

lemma sharedSecret_ok_of_check_ok {keccak : List Nat → List Nat}
    {eph spub addr tag : List Nat} {v : Nat} {b : Bool}
    (h : checkStealthAddress keccak eph spub v addr tag = .ok b) :
    ∃ sh, getSharedSecret v eph = .ok sh := by
  cases hsh : getSharedSecret v eph with
  | error err => rw [checkStealthAddress, hsh, error_bind] at h; cases h
  | ok sh => exact ⟨sh, rfl⟩

lemma computeStealthPrivateKey_ok {keccak : List Nat → List Nat}
    {eph sh : List Nat} {s v : Nat}
    (hsh : getSharedSecret v eph = .ok sh) :
    computeStealthPrivateKey keccak eph s v =
      .ok ((computeStealthPrivateKey keccak eph s v).toOption.getD 0) := by
  rw [computeStealthPrivateKey, hsh, ok_bind, pure_eq_ok]
  rfl

/-- C5: decrypting what `encryptData` produced, with the same password,
salt and nonce, returns the plaintext; and `decryptData` fails with the
single decryption-failed error whenever the underlying authenticated
AES-256-GCM decryption rejects — which it does on a wrong password, a
flipped ciphertext byte, a flipped salt byte (both change the derived key)
or a flipped nonce byte — without distinguishing the cause. -/
theorem C5_roundtrip_and_uniform_error
    (kdf : Nat → Nat → List Nat → List Nat → List Nat)
    (aesGcmEncrypt : List Nat → List Nat → List Nat → List Nat)
    (aesGcmDecrypt : List Nat → List Nat → List Nat → Option (List Nat))
    (data password salt iv ct2 p2 s2 iv2 : List Nat)
    (hcorrect : aesGcmDecrypt (deriveEncryptionKey kdf password salt) iv
      (aesGcmEncrypt (deriveEncryptionKey kdf password salt) iv data) =
        some data)
    (hreject : aesGcmDecrypt (deriveEncryptionKey kdf p2 s2) iv2 ct2 =
      none) :
    decryptData kdf aesGcmDecrypt
      (encryptData kdf aesGcmEncrypt data password salt iv).encrypted
      password salt iv = .ok data ∧
    decryptData kdf aesGcmDecrypt ct2 p2 s2 iv2 =
      .error .decryptionFailed := by
  constructor
  · simp only [decryptData, encryptData, hcorrect]
  · simp only [decryptData, hreject]

/-- Witness for C5 with a concrete toy key-derivation and authenticated
cipher: the round trip recovers the plaintext and a rejected ciphertext
yields exactly the decryption-failed error. -/
theorem C5_witness :
    decryptData (fun _ _ p s => p ++ s)
      (fun k iv c =>
        if c.take (k.length + iv.length) = k ++ iv then
          some (c.drop (k.length + iv.length))
        else none)
      (encryptData (fun _ _ p s => p ++ s) (fun k iv m => k ++ iv ++ m)
        [4, 5] [1] [2] [3]).encrypted [1] [2] [3] = .ok [4, 5] ∧
    decryptData (fun _ _ p s => p ++ s)
      (fun k iv c =>
        if c.take (k.length + iv.length) = k ++ iv then
          some (c.drop (k.length + iv.length))
        else none)
      [9] [1] [2] [3] = .error .decryptionFailed :=
  C5_roundtrip_and_uniform_error (fun _ _ p s => p ++ s)
    (fun k iv m => k ++ iv ++ m)
    (fun k iv c =>
      if c.take (k.length + iv.length) = k ++ iv then
        some (c.drop (k.length + iv.length))
      else none)
    [4, 5] [1] [2] [3] [9] [1] [2] [3] (by decide) (by decide)

/-- C8: when no announcement makes the recognition call throw, the scan
returns exactly the announcements for which `checkStealthAddress` (with
the view tag extracted from the metadata) returns `true`, in their
original relative order, each paired with the private key recovered by
`computeStealthPrivateKey`, and nothing else. -/
theorem C8_scan_yields_exactly_recognized (keccak : List Nat → List Nat)
    (spendingPublicKey : List Nat) (spendingPrivateKey viewingPrivateKey : Nat)
    (anns : List AnnouncementData)
    (hok : ∀ a ∈ anns, ∃ b,
      announcementCheck keccak spendingPublicKey viewingPrivateKey a =
        .ok b) :
    scanAnnouncements keccak spendingPublicKey spendingPrivateKey
      viewingPrivateKey anns =
      .ok ((anns.filter fun a =>
          announcementCheck keccak spendingPublicKey viewingPrivateKey a =
            .ok true).map
        fun a =>
          (a, announcementKey keccak spendingPrivateKey viewingPrivateKey a)) := by
  induction anns with
  | nil => simp [scanAnnouncements]
  | cons a rest ih =>
      obtain ⟨b, hb⟩ := hok a (List.mem_cons_self a rest)
      have ihr := ih (fun x hx => hok x (List.mem_cons_of_mem a hx))
      have hb' : checkStealthAddress keccak a.ephemeralPubKey
          spendingPublicKey viewingPrivateKey a.stealthAddress
          (extractViewTag a.metadata) = .ok b := hb
      rw [scanAnnouncements, hb', ok_bind]
      obtain ⟨sh, hsh⟩ := sharedSecret_ok_of_check_ok hb'
      cases b with
      | true =>
          rw [if_pos rfl, computeStealthPrivateKey_ok hsh, ok_bind, ihr,
            ok_bind, pure_eq_ok]
          simp [List.filter_cons, hb, announcementKey]
      | false =>
          rw [if_neg (by simp), ihr]
          have : ¬(announcementCheck keccak spendingPublicKey
              viewingPrivateKey a = .ok true) := by
            rw [hb]; simp
          simp [List.filter_cons, this]

/-- Witness for C8: scanning a concrete three-element announcement list in
which exactly the middle announcement is recognised yields exactly that
announcement with its recovered key. -/
theorem C8_witness :
    scanAnnouncements (fun _ => natToBytesBE 32 5) (serComp 1) 1 2
      [strangerAnn, oursAnn, strangerAnn] = .ok [(oursAnn, 6)] := by
  rw [C8_scan_yields_exactly_recognized (fun _ => natToBytesBE 32 5)
    (serComp 1) 1 2 [strangerAnn, oursAnn, strangerAnn] (by decide)]
  decide

end Nachtara
